import Mathlib

/-!
# Shallow embedding of `DiscoveryServiceV3` (src/unnamed/part_002)

This file models the adaptive prefix-exploration engine of the repository:
the result cache, pattern scorer, branch blocker, rate controller and the
prefix task executor (`processPrefix` / `handleResults`), together with the
statistics record.  Strings are modelled as `List Char` (`Str`), JS `Map`s as
insertion-ordered association lists, and the remote `fetch` as an oracle
`Nat → FetchResult` indexed by the number of fetches issued so far.  A run is
a sequence of `processPrefix` executions (`runList`); this over-approximates
the orchestrator's queue-driven dispatch order, so safety properties proved
over arbitrary dispatch sequences hold in particular for the real scheduler.
Wall-clock waiting (`setTimeout`, backoff sleeps) has no observable effect on
the modelled state and is omitted; `Date.now()` timestamps are pushed as `0`
since only the length of `requestTimestamps` is ever consulted.
-/

set_option maxRecDepth 4000

/-- JS strings of this domain, modelled as lists of characters. -/
abbrev Str := List Char

/-- Convert a Lean string literal to the `Str` model. -/
def str (s : String) : Str := s.toList

/-- Lookup in an insertion-ordered association list (JS `Map.get`). -/
def alookup {α : Type} (m : List (Str × α)) (k : Str) : Option α :=
  match m with
  | [] => none
  | (k', v) :: rest => if k' = k then some v else alookup rest k

/-- Update in an insertion-ordered association list (JS `Map.set`): an
existing key keeps its position, a new key is appended at the end. -/
def aset {α : Type} (m : List (Str × α)) (k : Str) (v : α) : List (Str × α) :=
  match m with
  | [] => [(k, v)]
  | (k', v') :: rest => if k' = k then (k, v) :: rest else (k', v') :: aset rest k v

/-- `map.set(k, (map.get(k) || 0) + 1)`, the counting idiom used throughout. -/
def bump (m : List (Str × Nat)) (k : Str) : List (Str × Nat) :=
  aset m k ((alookup m k).getD 0 + 1)

/-- The `DiscoveryStats` record (part_002 lines 9-20). -/
structure DiscoveryStats where
  totalRequests : Nat
  successfulRequests : Nat
  failedRequests : Nat
  uniqueNames : List Str
  rateLimited : Nat
  exploredPrefixes : List Str
  skippedPrefixes : List Str
  currentPrefixes : List Str
  blockedPrefixes : List Str
  efficiency : ℚ
  deriving DecidableEq

/-- The `DiscoveryOptions` record (part_002 lines 1-7). -/
structure DiscoveryOptions where
  delayBetweenRequests : Nat
  maxConcurrentRequests : Nat
  maxRetries : Nat
  initialPrefixes : List Str
  mlEnabled : Bool
  deriving DecidableEq

/-- The mutable instance fields of `DiscoveryServiceV3` that the engine
reads or writes (part_002 lines 26-41).  `commonNames` is written once and
never read by the engine, and the event callback leaves the state, so both
are omitted. -/
structure ServiceState where
  stats : DiscoveryStats
  isRunning : Bool
  isPaused : Bool
  prefixQueue : List Str
  prefixPatterns : List (Str × Nat)
  nameFrequencyMap : List (Str × Nat)
  cachedResults : List (Str × List Str)
  namePatterns : List (Str × Nat)
  requestTimestamps : List Nat
  simulationMode : Bool
  deriving DecidableEq

/-- The score bucket of `updatePatternScore` (part_002 lines 484-490). -/
def scoreBucket (resultCount : Nat) : Nat :=
  if resultCount > 8 then 5
  else if resultCount > 5 then 4
  else if resultCount > 2 then 3
  else if resultCount > 0 then 2
  else 0

/-- `getPatternScore` (part_002 lines 310-333). -/
def getPatternScore (p : Str) (s : ServiceState) : Nat :=
  if p.length ≤ 1 then 3
  else
    match alookup s.prefixPatterns p with
    | some v => v
    | none =>
      match alookup s.prefixPatterns p.dropLast with
      | some parentScore => parentScore - 1
      | none =>
        match alookup s.namePatterns p with
        | some np => min 4 np
        | none => 3 - p.length

/-- `updatePatternScore` (part_002 lines 482-509). -/
def updatePatternScore (p : Str) (resultCount : Nat) (s : ServiceState) : ServiceState :=
  let score := scoreBucket resultCount
  let pat1 := aset s.prefixPatterns p score
  let pat2 :=
    if 1 < p.length then
      let parent := p.dropLast
      let cur := (alookup pat1 parent).getD 0
      if 0 < resultCount ∧ cur < 5 then aset pat1 parent (min 5 (cur + 1)) else pat1
    else pat1
  let blocked :=
    if resultCount = 0 ∧ 2 ≤ p.length then s.stats.blockedPrefixes ++ [p]
    else s.stats.blockedPrefixes
  { s with prefixPatterns := pat2, stats := { s.stats with blockedPrefixes := blocked } }

/-- `shouldSkipPrefix` (part_002 lines 511-537). -/
def shouldSkipPrefix (p : Str) (s : ServiceState) : Bool :=
  if p.length ≤ 1 then false
  else if s.stats.blockedPrefixes.any (fun b => b.isPrefixOf p) then true
  else if getPatternScore p s = 0 then true
  else (List.range (p.length - 1)).all
    (fun i => alookup s.prefixPatterns (p.take (i + 1)) == some 0)

/-- `isBlockedByParent` (part_002 lines 587-589). -/
def isBlockedByParent (p : Str) (s : ServiceState) : Bool :=
  s.stats.blockedPrefixes.any (fun b => b.isPrefixOf p)

/-- Stable descending insertion of one entry into an already sorted list:
ties keep insertion order, matching JS stable `sort((a,b) => b[1]-a[1])`. -/
def insertByCount (acc : List (Str × Nat)) (x : Str × Nat) : List (Str × Nat) :=
  match acc with
  | [] => [x]
  | y :: ys => if x.2 ≤ y.2 then y :: insertByCount ys x else x :: y :: ys

/-- Stable sort by descending count (JS `sort((a,b) => b[1]-a[1])`). -/
def sortByCountDesc (l : List (Str × Nat)) : List (Str × Nat) :=
  l.foldl insertByCount []

/-- `extractCommonPrefixes` (part_002 lines 591-611). -/
def extractCommonPrefixes (names : List Str) (current : Str) : List Str :=
  if names.length = 0 then []
  else
    let freq := names.foldl
      (fun m name =>
        match name.drop current.length with
        | [] => m
        | c :: _ => bump m (current ++ [c]))
      []
    ((sortByCountDesc freq).take 3).map (·.1)

/-- `generateOptimalNextPrefixes` (part_002 lines 539-585). -/
def generateOptimalNextPrefixes (p : Str) (results : List Str) (s : ServiceState) :
    ServiceState :=
  if 0 < results.length then
    if p.length < 3 then
      let common := extractCommonPrefixes results p
      let s1 := common.foldl
        (fun st np =>
          if np ∉ st.stats.exploredPrefixes ∧ np ∉ st.stats.skippedPrefixes ∧
              np ∉ st.prefixQueue ∧ isBlockedByParent np st = false then
            { st with prefixQueue := st.prefixQueue ++ [np] }
          else st)
        s
      if common.length < 2 ∨ p.length < 2 then
        (str "aeijlmnorst").foldl
          (fun st c =>
            if p ++ [c] ∉ st.stats.exploredPrefixes ∧ p ++ [c] ∉ st.stats.skippedPrefixes ∧
                p ++ [c] ∉ st.prefixQueue ∧ p ++ [c] ∉ common ∧
                isBlockedByParent (p ++ [c]) st = false then
              { st with prefixQueue := st.prefixQueue ++ [p ++ [c]] }
            else st)
          s1
      else s1
    else s
  else if p.length ≤ 1 then
    (str "aeimnrst").foldl
      (fun st c =>
        if p ++ [c] ∉ st.stats.exploredPrefixes ∧ p ++ [c] ∉ st.stats.skippedPrefixes ∧
            p ++ [c] ∉ st.prefixQueue then
          { st with prefixQueue := st.prefixQueue ++ [p ++ [c]] }
        else st)
      s
  else s

/-- The suffix pool of `generateFakeNamesForPrefix` (part_002 lines 412-415). -/
def nameSuffixes : List Str :=
  [str "ames", str "ohn", str "ark", str "ike", str "ill", str "ave", str "ack",
   str "eter", str "yan", str "evin", str "ary", str "ara", str "isa", str "rin",
   str "mma", str "arah", str "nna", str "kate", str "ulie", str "ophy"]

/-- `prefix.charCodeAt(0)`; prefixes in this domain are non-empty. -/
def charCode0 (p : Str) : Nat :=
  match p with
  | [] => 0
  | c :: _ => c.toNat

/-- `generateFakeNamesForPrefix` (part_002 lines 410-443). -/
def generateFakeNamesForPrefix (p : Str) (s : ServiceState) : List Str :=
  let suffixesToUse := if p.length > 2 then 3 else 6
  let possibleNames := (List.range suffixesToUse).map
    (fun i =>
      let suffixIndex := (charCode0 p + i) % nameSuffixes.length
      let suffix := (nameSuffixes.getD suffixIndex [])
      if p.length > 1 then p ++ suffix.drop (min suffix.length p.length)
      else p ++ suffix)
  let patternScore := getPatternScore p s
  let resultCount := min possibleNames.length (patternScore + 1)
  possibleNames.take resultCount

/-- `handleResults` (part_002 lines 445-480).  The progress callback only
leaves the engine and is dropped; everything it would receive (`stats` and
the freshly discovered names) is visible in the returned state. -/
def handleResults (p : Str) (names : List Str) (fromCache : Bool) (s : ServiceState) :
    ServiceState :=
  let stats0 := s.stats
  let succ := if fromCache then stats0.successfulRequests else stats0.successfulRequests + 1
  let explored := stats0.exploredPrefixes ++ [p]
  let current := stats0.currentPrefixes.filter (· ≠ p)
  let folded := names.foldl
    (fun (acc : List (Str × Nat) × List Str) name =>
      (bump acc.1 name, if name ∈ acc.2 then acc.2 else acc.2 ++ [name]))
    (s.nameFrequencyMap, stats0.uniqueNames)
  let s1 : ServiceState :=
    { s with
      nameFrequencyMap := folded.1,
      stats := { stats0 with
        successfulRequests := succ,
        exploredPrefixes := explored,
        currentPrefixes := current,
        uniqueNames := folded.2 } }
  let s2 := updatePatternScore p names.length s1
  let s3 := generateOptimalNextPrefixes p names s2
  { s3 with stats := { s3.stats with
      efficiency :=
        if 0 < s3.stats.successfulRequests then
          (s3.stats.uniqueNames.length : ℚ) / (s3.stats.successfulRequests : ℚ)
        else s3.stats.efficiency } }

/-- Outcome of one invocation of the remote `fetch` for a prefix:
a successful response carrying `data.results || []`, a non-ok HTTP status,
or a thrown error (network unreachable / malformed response). -/
inductive FetchResult where
  | ok (names : List Str)
  | httpError (status : Nat)
  | throwErr
  deriving DecidableEq

/-- The engine state plus the fetch-oracle cursor and a log of every prefix
for which the remote query was actually invoked, in order. -/
structure World where
  state : ServiceState
  fetchCount : Nat
  fetchLog : List Str
  deriving DecidableEq

/-- The `catch` block of `processPrefix` (part_002 lines 399-407):
count a failure, fabricate substitute names, cache them, and route them
through the ordinary success handler with `fromCache = false`. -/
def catchHandler (p : Str) (w : World) : World :=
  let s := { w.state with stats := { w.state.stats with
    failedRequests := w.state.stats.failedRequests + 1 } }
  let fakeNames := generateFakeNamesForPrefix p s
  let s := { s with cachedResults := aset s.cachedResults p fakeNames }
  { w with state := handleResults p fakeNames false s }

/-- `processPrefix` (part_002 lines 335-408), with the retry recursion made
structural on a fuel argument.  The recursion fires only while
`retryCount < maxRetries`, so with initial fuel `maxRetries + 1` the fuel
never reaches 0 before a terminal branch; the fuel-0 case is dead code. -/
def processPrefixFuel (opts : DiscoveryOptions) (oracle : Nat → FetchResult) :
    Nat → Str → Nat → World → World
  | 0, _, _, w => w
  | fuel + 1, p, retryCount, w =>
    if w.state.isRunning = true then
      match alookup w.state.cachedResults p with
      | some cachedNames =>
        { w with state := handleResults p cachedNames true w.state }
      | none =>
        if shouldSkipPrefix p w.state = true then
          { w with state := { w.state with stats := { w.state.stats with
              skippedPrefixes := w.state.stats.skippedPrefixes ++ [p],
              currentPrefixes := w.state.stats.currentPrefixes.filter (· ≠ p) } } }
        else
          let s := { w.state with
            stats := { w.state.stats with totalRequests := w.state.stats.totalRequests + 1 },
            requestTimestamps := w.state.requestTimestamps ++ [0] }
          if s.simulationMode = true then
            let names := generateFakeNamesForPrefix p s
            let s := { s with cachedResults := aset s.cachedResults p names }
            { w with state := handleResults p names false s }
          else
            let w1 : World :=
              { state := s, fetchCount := w.fetchCount + 1, fetchLog := w.fetchLog ++ [p] }
            match oracle w.fetchCount with
            | FetchResult.ok names =>
              let s2 := { w1.state with
                cachedResults := aset w1.state.cachedResults p names }
              { w1 with state := handleResults p names false s2 }
            | FetchResult.httpError status =>
              if status = 429 then
                let s2 := { w1.state with stats := { w1.state.stats with
                  rateLimited := w1.state.stats.rateLimited + 1 } }
                if retryCount < opts.maxRetries then
                  let s3 := { s2 with prefixQueue := p :: s2.prefixQueue }
                  processPrefixFuel opts oracle fuel p (retryCount + 1) { w1 with state := s3 }
                else
                  catchHandler p { w1 with state := { s2 with stats := { s2.stats with
                    failedRequests := s2.stats.failedRequests + 1 } } }
              else
                catchHandler p { w1 with state := { w1.state with stats := { w1.state.stats with
                  failedRequests := w1.state.stats.failedRequests + 1 } } }
            | FetchResult.throwErr => catchHandler p w1
    else w

/-- One top-level `processPrefix(prefix)` call (retry counter starting at 0). -/
def processPrefixW (opts : DiscoveryOptions) (oracle : Nat → FetchResult)
    (p : Str) (w : World) : World :=
  processPrefixFuel opts oracle (opts.maxRetries + 1) p 0 w

/-- A run: a sequence of `processPrefix` executions in dispatch order. -/
def runList (opts : DiscoveryOptions) (oracle : Nat → FetchResult) :
    List Str → World → World
  | [], w => w
  | p :: rest, w => runList opts oracle rest (processPrefixW opts oracle p w)

/-- `calculateOptimalConcurrency` (part_002 lines 224-246).  The in-place
trimming of `requestTimestamps` to the last 100 entries is bookkeeping that
cannot change any returned ceiling (the length stays ≥ 10) and is omitted. -/
def calculateOptimalConcurrency (opts : DiscoveryOptions) (s : ServiceState) : Nat :=
  if 10 ≤ s.requestTimestamps.length then
    if 0 < s.stats.rateLimited then max 1 (opts.maxConcurrentRequests - 1)
    else if 10 < s.stats.successfulRequests ∧ s.stats.rateLimited = 0 then
      min opts.maxConcurrentRequests 5
    else 1
  else 1

/-- The name list of `initializeCommonNames` (part_002 lines 76-80). -/
def commonEnglishNames : List Str :=
  [str "james", str "john", str "robert", str "michael", str "william", str "david",
   str "joseph", str "charles", str "thomas", str "mary", str "patricia",
   str "jennifer", str "linda", str "elizabeth", str "barbara", str "susan",
   str "jessica", str "sarah", str "karen", str "lisa", str "nancy", str "betty",
   str "sandra"]

/-- `namePatterns` as built by `initializeCommonNames` (part_002 lines 82-90):
for each common name, count its length-1..3 proper prefixes. -/
def buildNamePatterns : List (Str × Nat) :=
  commonEnglishNames.foldl
    (fun m name =>
      (List.range 3).foldl
        (fun m' i => if i + 1 < name.length then bump m' (name.take (i + 1)) else m')
        m)
    []

/-- Zeroed statistics, as set by the constructor and by `reset()`. -/
def initialStats : DiscoveryStats :=
  { totalRequests := 0, successfulRequests := 0, failedRequests := 0,
    uniqueNames := [], rateLimited := 0, exploredPrefixes := [],
    skippedPrefixes := [], currentPrefixes := [], blockedPrefixes := [],
    efficiency := 0 }

/-- The state produced by the constructor (part_002 lines 49-73). -/
def initialState : ServiceState :=
  { stats := initialStats, isRunning := false, isPaused := false, prefixQueue := [],
    prefixPatterns := [], nameFrequencyMap := [], cachedResults := [],
    namePatterns := buildNamePatterns, requestTimestamps := [], simulationMode := false }

/-- `reset()` (part_002 lines 142-161): implies `stop()` (running and paused
flags cleared), then clears stats, queue, patterns, frequencies, cache and
timestamps.  `namePatterns` and `simulationMode` are untouched. -/
def resetService (s : ServiceState) : ServiceState :=
  { s with
    isRunning := false, isPaused := false, stats := initialStats,
    prefixQueue := [], prefixPatterns := [], nameFrequencyMap := [],
    cachedResults := [], requestTimestamps := [] }

/-- A freshly constructed service once `start()` has flipped it to running
(queue seeding does not matter for dispatch-sequence traces). -/
def runningInit : ServiceState :=
  { initialState with isRunning := true }

/-- The option defaults of the constructor (part_002 lines 50-56). -/
def defaultOptions : DiscoveryOptions :=
  { delayBetweenRequests := 250, maxConcurrentRequests := 4, maxRetries := 3,
    initialPrefixes := [], mlEnabled := true }


/-- All fields of the state except the frontier queue, as a tuple:
`generateOptimalNextPrefixes` only ever appends to the queue. -/
def sansQueue (s : ServiceState) :=
  (s.stats, s.prefixPatterns, s.nameFrequencyMap, s.cachedResults, s.namePatterns,
   s.requestTimestamps, s.isRunning, s.isPaused, s.simulationMode)

/-- The efficiency bookkeeping invariant maintained by the engine:
the stored `efficiency` always equals `|uniqueNames| / successfulRequests`
(and `0` while no successful request has completed), and a non-empty result
cache implies at least one successful request has been counted. -/
def EfficiencyInv (s : ServiceState) : Prop :=
  (s.cachedResults = [] ∨ 1 ≤ s.stats.successfulRequests) ∧
  s.stats.efficiency =
    (if s.stats.successfulRequests = 0 then 0
     else (s.stats.uniqueNames.length : ℚ) / (s.stats.successfulRequests : ℚ))

/-! ## Concrete worlds and oracles used by the claim instances -/

/-- A fresh running service with the oracle cursor at 0 and an empty log. -/
def w0 : World := ⟨runningInit, 0, []⟩

/-- Remote behaviour: HTTP 429 on the first attempt, then success. -/
def oracle429Once : Nat → FetchResult :=
  fun n => if n = 0 then FetchResult.httpError 429 else FetchResult.ok [str "alice"]

/-- Remote behaviour: HTTP 429 on the first two attempts, then success. -/
def oracle429Twice : Nat → FetchResult :=
  fun n => if n < 2 then FetchResult.httpError 429
    else FetchResult.ok [str "alice", str "anna"]

/-- Remote behaviour: always succeeds with an empty result list. -/
def oracleEmpty : Nat → FetchResult := fun _ => FetchResult.ok []

/-- Remote behaviour: always a non-429 HTTP error. -/
def oracle500 : Nat → FetchResult := fun _ => FetchResult.httpError 500

/-- Remote behaviour: the fetch always throws. -/
def oracleThrow : Nat → FetchResult := fun _ => FetchResult.throwErr

/-- Remote behaviour: one HTTP 429, then clean empty successes forever. -/
def oracleC6 : Nat → FetchResult :=
  fun n => if n = 0 then FetchResult.httpError 429 else FetchResult.ok []

/-- Twelve distinct single-letter prefixes. -/
def lettersAtoL : List Str :=
  [str "a", str "b", str "c", str "d", str "e", str "f", str "g", str "h",
   str "i", str "j", str "k", str "l"]

/-- A running service whose cache already holds a result set for "al". -/
def cachedW : World :=
  ⟨{ runningInit with cachedResults := [(str "al", [str "alice"])] }, 0, []⟩

/-- A running service in which the prefix "al" is already blocked. -/
def blockedW : World :=
  ⟨{ runningInit with stats := { initialStats with blockedPrefixes := [str "al"] } }, 0, []⟩

/-- A running service that has already seen one rate-limit rejection. -/
def limitedW : World :=
  ⟨{ runningInit with stats := { initialStats with rateLimited := 1 } }, 0, []⟩

/-- A service state with a clean sustained window: 12 recorded request
timestamps, 12 successes and zero rate-limit rejections. -/
def cleanHistoryState : ServiceState :=
  { runningInit with
    stats := { initialStats with successfulRequests := 12 },
    requestTimestamps := List.replicate 12 0 }

/-! ## Basic lemmas about the association-list operations -/

theorem alookup_aset_self {α : Type} (m : List (Str × α)) (k : Str) (v : α) :
    alookup (aset m k v) k = some v := by
  induction m with
  | nil => simp [aset, alookup]
  | cons hd t ih =>
    rcases hd with ⟨k0, v0⟩
    by_cases hk : k0 = k
    · subst hk; simp [aset, alookup]
    · simp [aset, alookup, hk, ih]

theorem alookup_aset_ne {α : Type} (m : List (Str × α)) (k k' : Str) (v : α)
    (h : k' ≠ k) : alookup (aset m k v) k' = alookup m k' := by
  induction m with
  | nil => simp [aset, alookup, Ne.symm h]
  | cons hd t ih =>
    rcases hd with ⟨k0, v0⟩
    by_cases hk : k0 = k
    · subst hk; simp [aset, alookup, Ne.symm h]
    · by_cases hk' : k0 = k'
      · simp [aset, alookup, hk, hk', h]
      · simp [aset, alookup, hk, hk', ih]

theorem ne_nil_of_alookup_some {α : Type} (m : List (Str × α)) (k : Str) (v : α)
    (h : alookup m k = some v) : m ≠ [] := by
  intro hm
  subst hm
  simp [alookup] at h

/-- Generic preservation of a projection across `List.foldl`. -/
theorem foldl_preserve {α β γ : Type} {f : γ → α → γ} (proj : γ → β)
    (h : ∀ c a, proj (f c a) = proj c) :
    ∀ (l : List α) (c : γ), proj (l.foldl f c) = proj c := by
  intro l
  induction l with
  | nil => intro c; rfl
  | cons hd t ih => intro c; rw [List.foldl_cons, ih, h]

theorem isPrefixOf_length_le : ∀ (l₁ l₂ : Str), l₁.isPrefixOf l₂ = true →
    l₁.length ≤ l₂.length := by
  intro l₁
  induction l₁ with
  | nil => intro l₂ _; simp
  | cons c t ih =>
    intro l₂ h
    cases l₂ with
    | nil => simp [List.isPrefixOf] at h
    | cons c' t' =>
      simp only [List.isPrefixOf, Bool.and_eq_true] at h
      simpa using ih t' h.2

theorem gen_sansQueue (p : Str) (results : List Str) (s : ServiceState) :
    sansQueue (generateOptimalNextPrefixes p results s) = sansQueue s := by
  have h1 : ∀ (l : List Str) (t : ServiceState),
      sansQueue (l.foldl
        (fun st np =>
          if np ∉ st.stats.exploredPrefixes ∧ np ∉ st.stats.skippedPrefixes ∧
              np ∉ st.prefixQueue ∧ isBlockedByParent np st = false then
            { st with prefixQueue := st.prefixQueue ++ [np] }
          else st) t) = sansQueue t :=
    fun l t => foldl_preserve sansQueue (by intro c a; split <;> rfl) l t
  have h2 : ∀ (common : List Str) (l : List Char) (t : ServiceState),
      sansQueue (l.foldl
        (fun st c =>
          if p ++ [c] ∉ st.stats.exploredPrefixes ∧ p ++ [c] ∉ st.stats.skippedPrefixes ∧
              p ++ [c] ∉ st.prefixQueue ∧ p ++ [c] ∉ common ∧
              isBlockedByParent (p ++ [c]) st = false then
            { st with prefixQueue := st.prefixQueue ++ [p ++ [c]] }
          else st) t) = sansQueue t :=
    fun common l t => foldl_preserve sansQueue (by intro c a; split <;> rfl) l t
  have h3 : ∀ (l : List Char) (t : ServiceState),
      sansQueue (l.foldl
        (fun st c =>
          if p ++ [c] ∉ st.stats.exploredPrefixes ∧ p ++ [c] ∉ st.stats.skippedPrefixes ∧
              p ++ [c] ∉ st.prefixQueue then
            { st with prefixQueue := st.prefixQueue ++ [p ++ [c]] }
          else st) t) = sansQueue t :=
    fun l t => foldl_preserve sansQueue (by intro c a; split <;> rfl) l t
  simp only [generateOptimalNextPrefixes]
  split
  · split
    · split
      · rw [h2, h1]
      · exact h1 _ _
    · rfl
  · split
    · exact h3 _ _
    · rfl

theorem gen_stats (p : Str) (results : List Str) (s : ServiceState) :
    (generateOptimalNextPrefixes p results s).stats = s.stats :=
  congrArg (fun t => t.1) (gen_sansQueue p results s)

theorem gen_patterns (p : Str) (results : List Str) (s : ServiceState) :
    (generateOptimalNextPrefixes p results s).prefixPatterns = s.prefixPatterns :=
  congrArg (fun t => t.2.1) (gen_sansQueue p results s)

theorem gen_cache (p : Str) (results : List Str) (s : ServiceState) :
    (generateOptimalNextPrefixes p results s).cachedResults = s.cachedResults :=
  congrArg (fun t => t.2.2.2.1) (gen_sansQueue p results s)

theorem gen_isRunning (p : Str) (results : List Str) (s : ServiceState) :
    (generateOptimalNextPrefixes p results s).isRunning = s.isRunning :=
  congrArg (fun t => t.2.2.2.2.2.2.1) (gen_sansQueue p results s)

/-! ## Projection lemmas for `updatePatternScore` -/

theorem upd_succ (p : Str) (n : Nat) (s : ServiceState) :
    (updatePatternScore p n s).stats.successfulRequests = s.stats.successfulRequests := rfl

theorem upd_failed (p : Str) (n : Nat) (s : ServiceState) :
    (updatePatternScore p n s).stats.failedRequests = s.stats.failedRequests := rfl

theorem upd_rate (p : Str) (n : Nat) (s : ServiceState) :
    (updatePatternScore p n s).stats.rateLimited = s.stats.rateLimited := rfl

theorem upd_total (p : Str) (n : Nat) (s : ServiceState) :
    (updatePatternScore p n s).stats.totalRequests = s.stats.totalRequests := rfl

theorem upd_unique (p : Str) (n : Nat) (s : ServiceState) :
    (updatePatternScore p n s).stats.uniqueNames = s.stats.uniqueNames := rfl

theorem upd_eff (p : Str) (n : Nat) (s : ServiceState) :
    (updatePatternScore p n s).stats.efficiency = s.stats.efficiency := rfl

theorem upd_cache (p : Str) (n : Nat) (s : ServiceState) :
    (updatePatternScore p n s).cachedResults = s.cachedResults := rfl

theorem upd_isRunning (p : Str) (n : Nat) (s : ServiceState) :
    (updatePatternScore p n s).isRunning = s.isRunning := rfl

theorem upd_blocked_mono (p : Str) (n : Nat) (s : ServiceState) (x : Str)
    (hx : x ∈ s.stats.blockedPrefixes) :
    x ∈ (updatePatternScore p n s).stats.blockedPrefixes := by
  simp only [updatePatternScore]
  split
  · exact List.mem_append_left _ hx
  · exact hx

theorem upd_blocks (p : Str) (s : ServiceState) (hp : 2 ≤ p.length) :
    p ∈ (updatePatternScore p 0 s).stats.blockedPrefixes := by
  simp only [updatePatternScore]
  split
  · exact List.mem_append_right _ (by simp)
  · next hcond => exact absurd (by simp [hp]) hcond

theorem dropLast_ne_self (p : Str) (hp : p ≠ []) : p.dropLast ≠ p := by
  intro h
  have := congrArg List.length h
  rw [List.length_dropLast] at this
  have hpos : 0 < p.length := List.length_pos.mpr hp
  omega

theorem upd_patterns_self (p : Str) (n : Nat) (s : ServiceState) (hp : p ≠ []) :
    alookup (updatePatternScore p n s).prefixPatterns p = some (scoreBucket n) := by
  simp only [updatePatternScore]
  split
  · split
    · rw [alookup_aset_ne _ _ _ _ (fun h => dropLast_ne_self p hp h.symm),
        alookup_aset_self]
    · rw [alookup_aset_self]
  · rw [alookup_aset_self]

/-! ## Projection lemmas for `handleResults` -/

theorem hr_failed (p : Str) (names : List Str) (fc : Bool) (s : ServiceState) :
    (handleResults p names fc s).stats.failedRequests = s.stats.failedRequests := by
  simp [handleResults, gen_stats, upd_failed]

theorem hr_rate (p : Str) (names : List Str) (fc : Bool) (s : ServiceState) :
    (handleResults p names fc s).stats.rateLimited = s.stats.rateLimited := by
  simp [handleResults, gen_stats, upd_rate]

theorem hr_total (p : Str) (names : List Str) (fc : Bool) (s : ServiceState) :
    (handleResults p names fc s).stats.totalRequests = s.stats.totalRequests := by
  simp [handleResults, gen_stats, upd_total]

theorem hr_cache (p : Str) (names : List Str) (fc : Bool) (s : ServiceState) :
    (handleResults p names fc s).cachedResults = s.cachedResults := by
  simp [handleResults, gen_cache, upd_cache]

theorem hr_isRunning (p : Str) (names : List Str) (fc : Bool) (s : ServiceState) :
    (handleResults p names fc s).isRunning = s.isRunning := by
  simp [handleResults, gen_isRunning, upd_isRunning]

theorem hr_succ (p : Str) (names : List Str) (fc : Bool) (s : ServiceState) :
    (handleResults p names fc s).stats.successfulRequests =
      if fc then s.stats.successfulRequests else s.stats.successfulRequests + 1 := by
  simp only [handleResults, gen_stats, upd_succ]

theorem hr_blocked_mono (p : Str) (names : List Str) (fc : Bool) (s : ServiceState)
    (x : Str) (hx : x ∈ s.stats.blockedPrefixes) :
    x ∈ (handleResults p names fc s).stats.blockedPrefixes := by
  simp only [handleResults, gen_stats]
  exact upd_blocked_mono _ _ _ _ hx

theorem hr_blocks (p : Str) (fc : Bool) (s : ServiceState) (hp : 2 ≤ p.length) :
    p ∈ (handleResults p [] fc s).stats.blockedPrefixes := by
  simp only [handleResults, gen_stats]
  exact upd_blocks p _ hp

theorem hr_efficiency (p : Str) (names : List Str) (fc : Bool) (s : ServiceState)
    (h : fc = false ∨ 0 < s.stats.successfulRequests) :
    (handleResults p names fc s).stats.efficiency =
      ((handleResults p names fc s).stats.uniqueNames.length : ℚ) /
        ((handleResults p names fc s).stats.successfulRequests : ℚ) := by
  have hc : 0 < (if fc then s.stats.successfulRequests
      else s.stats.successfulRequests + 1) := by
    rcases h with h | h
    · simp [h]
    · split <;> omega
  simp only [handleResults, gen_stats, upd_succ, upd_unique]
  rw [if_pos hc]

theorem fold_unique_mem (names : List Str) :
    ∀ (acc : List (Str × Nat) × List Str) (x : Str),
      (x ∈ acc.2 ∨ x ∈ names) →
      x ∈ (names.foldl
        (fun (a : List (Str × Nat) × List Str) name =>
          (bump a.1 name, if name ∈ a.2 then a.2 else a.2 ++ [name]))
        acc).2 := by
  induction names with
  | nil =>
    intro acc x hx
    rcases hx with h | h
    · simpa using h
    · simp at h
  | cons n ns ih =>
    intro acc x hx
    rw [List.foldl_cons]
    apply ih
    rcases hx with h | h
    · left
      by_cases hn : n ∈ acc.2 <;> simp [hn, h]
    · rcases List.mem_cons.mp h with h | h
      · subst h
        left
        by_cases hn : x ∈ acc.2 <;> simp [hn]
      · right
        exact h

theorem hr_unique_mem (p : Str) (names : List Str) (fc : Bool) (s : ServiceState)
    (x : Str) (hx : x ∈ s.stats.uniqueNames ∨ x ∈ names) :
    x ∈ (handleResults p names fc s).stats.uniqueNames := by
  simp only [handleResults, gen_stats, upd_unique]
  exact fold_unique_mem names _ x hx

theorem hr_patterns_self (p : Str) (names : List Str) (fc : Bool) (s : ServiceState)
    (hp : p ≠ []) :
    alookup (handleResults p names fc s).prefixPatterns p =
      some (scoreBucket names.length) := by
  simp only [handleResults, gen_patterns]
  exact upd_patterns_self p names.length _ hp

/-! ## Lemmas for the catch block -/

theorem gfn_congr (p : Str) (s t : ServiceState)
    (h1 : s.prefixPatterns = t.prefixPatterns) (h2 : s.namePatterns = t.namePatterns) :
    generateFakeNamesForPrefix p s = generateFakeNamesForPrefix p t := by
  simp only [generateFakeNamesForPrefix, getPatternScore, h1, h2]

theorem catch_log (p : Str) (w : World) : (catchHandler p w).fetchLog = w.fetchLog := rfl

theorem catch_fetchCount (p : Str) (w : World) :
    (catchHandler p w).fetchCount = w.fetchCount := rfl

theorem catch_failed (p : Str) (w : World) :
    (catchHandler p w).state.stats.failedRequests =
      w.state.stats.failedRequests + 1 := by
  simp [catchHandler, hr_failed]

theorem catch_succ (p : Str) (w : World) :
    (catchHandler p w).state.stats.successfulRequests =
      w.state.stats.successfulRequests + 1 := by
  simp [catchHandler, hr_succ]

theorem catch_rate (p : Str) (w : World) :
    (catchHandler p w).state.stats.rateLimited = w.state.stats.rateLimited := by
  simp [catchHandler, hr_rate]

theorem catch_blocked_mono (p : Str) (w : World) (x : Str)
    (hx : x ∈ w.state.stats.blockedPrefixes) :
    x ∈ (catchHandler p w).state.stats.blockedPrefixes := by
  simp only [catchHandler]
  exact hr_blocked_mono _ _ _ _ x hx

theorem catch_cache_self (p : Str) (w : World) :
    alookup (catchHandler p w).state.cachedResults p =
      some (generateFakeNamesForPrefix p w.state) := by
  simp only [catchHandler, hr_cache]
  rw [alookup_aset_self]
  exact congrArg some (gfn_congr p _ _ rfl rfl)

theorem catch_cache_pres (p q : Str) (w : World) (v : List Str) (hq : q ≠ p)
    (hv : alookup w.state.cachedResults q = some v) :
    alookup (catchHandler p w).state.cachedResults q = some v := by
  simp only [catchHandler, hr_cache]
  rw [alookup_aset_ne _ _ _ _ hq]
  exact hv

/-! ## Step lemmas for `processPrefix` -/

theorem ppf_blocked_mono (opts : DiscoveryOptions) (oracle : Nat → FetchResult) :
    ∀ (fuel : Nat) (p : Str) (rc : Nat) (w : World) (x : Str),
      x ∈ w.state.stats.blockedPrefixes →
      x ∈ (processPrefixFuel opts oracle fuel p rc w).state.stats.blockedPrefixes := by
  intro fuel
  induction fuel with
  | zero => intro p rc w x hx; simpa [processPrefixFuel] using hx
  | succ fuel ih =>
    intro p rc w x hx
    simp only [processPrefixFuel]
    split
    · split
      · exact hr_blocked_mono _ _ _ _ x hx
      · split
        · exact hx
        · split
          · exact hr_blocked_mono _ _ _ _ x hx
          · split
            · exact hr_blocked_mono _ _ _ _ x hx
            · split
              · split
                · exact ih p (rc + 1) _ x hx
                · exact catch_blocked_mono _ _ x hx
              · exact catch_blocked_mono _ _ x hx
            · exact catch_blocked_mono _ _ x hx
    · exact hx

theorem ppf_log (opts : DiscoveryOptions) (oracle : Nat → FetchResult) :
    ∀ (fuel : Nat) (p : Str) (rc : Nat) (w : World),
      ∃ k : Nat, k ≤ fuel ∧
        (processPrefixFuel opts oracle fuel p rc w).fetchLog =
          w.fetchLog ++ List.replicate k p := by
  intro fuel
  induction fuel with
  | zero => intro p rc w; exact ⟨0, le_refl 0, by simp [processPrefixFuel]⟩
  | succ fuel ih =>
    intro p rc w
    simp only [processPrefixFuel]
    split
    · split
      · exact ⟨0, Nat.zero_le _, by simp⟩
      · split
        · exact ⟨0, Nat.zero_le _, by simp⟩
        · split
          · exact ⟨0, Nat.zero_le _, by simp⟩
          · split
            · exact ⟨1, by omega, by simp [List.replicate]⟩
            · split
              · split
                · obtain ⟨k, hk, hlog⟩ := ih p (rc + 1) _
                  refine ⟨k + 1, by omega, ?_⟩
                  rw [hlog]
                  simp [List.replicate_succ]
                · exact ⟨1, by omega, by simp [catch_log, List.replicate]⟩
              · exact ⟨1, by omega, by simp [catch_log, List.replicate]⟩
            · exact ⟨1, by omega, by simp [catch_log, List.replicate]⟩
    · exact ⟨0, Nat.zero_le _, by simp⟩

theorem skip_of_blocked (p q : Str) (s : ServiceState)
    (hp : p ∈ s.stats.blockedPrefixes) (hlen : 2 ≤ p.length)
    (hpre : p.isPrefixOf q = true) : shouldSkipPrefix q s = true := by
  unfold shouldSkipPrefix
  have hq : ¬ (q.length ≤ 1) := by
    have := isPrefixOf_length_le p q hpre
    omega
  rw [if_neg hq, if_pos]
  exact List.any_eq_true.mpr ⟨p, hp, hpre⟩

theorem ppf_no_fetch_of_blocked (opts : DiscoveryOptions) (oracle : Nat → FetchResult)
    (fuel : Nat) (q : Str) (rc : Nat) (w : World) (p : Str)
    (hp : p ∈ w.state.stats.blockedPrefixes) (hlen : 2 ≤ p.length)
    (hpre : p.isPrefixOf q = true) :
    (processPrefixFuel opts oracle fuel q rc w).fetchLog = w.fetchLog := by
  cases fuel with
  | zero => simp [processPrefixFuel]
  | succ fuel =>
    simp only [processPrefixFuel]
    split
    · split
      · rfl
      · rw [if_pos (skip_of_blocked p q w.state hp hlen hpre)]
    · rfl

theorem ppf_cache_pres (opts : DiscoveryOptions) (oracle : Nat → FetchResult) :
    ∀ (fuel : Nat) (p : Str) (rc : Nat) (w : World) (q : Str) (v : List Str),
      alookup w.state.cachedResults q = some v →
      alookup (processPrefixFuel opts oracle fuel p rc w).state.cachedResults q = some v := by
  intro fuel
  induction fuel with
  | zero => intro p rc w q v hv; simpa [processPrefixFuel] using hv
  | succ fuel ih =>
    intro p rc w q v hv
    simp only [processPrefixFuel]
    split
    · split
      · simp only [hr_cache]
        exact hv
      · next heq =>
        have hqp : q ≠ p := by
          intro h
          rw [h, heq] at hv
          cases hv
        split
        · exact hv
        · split
          · simp only [hr_cache]
            rw [alookup_aset_ne _ _ _ _ hqp]
            exact hv
          · split
            · simp only [hr_cache]
              rw [alookup_aset_ne _ _ _ _ hqp]
              exact hv
            · split
              · split
                · exact ih p (rc + 1) _ q v hv
                · exact catch_cache_pres p q _ v hqp hv
              · exact catch_cache_pres p q _ v hqp hv
            · exact catch_cache_pres p q _ v hqp hv
    · exact hv

theorem ppf_rate_mono (opts : DiscoveryOptions) (oracle : Nat → FetchResult) :
    ∀ (fuel : Nat) (p : Str) (rc : Nat) (w : World),
      w.state.stats.rateLimited ≤
        (processPrefixFuel opts oracle fuel p rc w).state.stats.rateLimited := by
  intro fuel
  induction fuel with
  | zero => intro p rc w; simp [processPrefixFuel]
  | succ fuel ih =>
    intro p rc w
    simp only [processPrefixFuel]
    split
    · split
      · simp [hr_rate]
      · split
        · exact le_refl _
        · split
          · simp [hr_rate]
          · split
            · simp [hr_rate]
            · split
              · split
                · refine le_trans ?_ (ih p (rc + 1) _)
                  exact Nat.le_succ _
                · rw [catch_rate]
                  exact Nat.le_succ _
              · rw [catch_rate]
            · rw [catch_rate]
    · exact le_refl _

theorem hr_inv (p : Str) (names : List Str) (fc : Bool) (s : ServiceState)
    (hfc : fc = false ∨ 0 < s.stats.successfulRequests) :
    EfficiencyInv (handleResults p names fc s) := by
  have hpos : 0 < (handleResults p names fc s).stats.successfulRequests := by
    rw [hr_succ]
    rcases hfc with h | h
    · simp [h]
    · split <;> omega
  constructor
  · right
    exact hpos
  · rw [if_neg (by omega)]
    exact hr_efficiency p names fc s hfc

theorem ppf_inv (opts : DiscoveryOptions) (oracle : Nat → FetchResult) :
    ∀ (fuel : Nat) (p : Str) (rc : Nat) (w : World),
      EfficiencyInv w.state →
      EfficiencyInv (processPrefixFuel opts oracle fuel p rc w).state := by
  intro fuel
  induction fuel with
  | zero => intro p rc w h; simpa [processPrefixFuel] using h
  | succ fuel ih =>
    intro p rc w h
    simp only [processPrefixFuel]
    split
    · split
      · next names heq =>
        have hsucc : 0 < w.state.stats.successfulRequests := by
          rcases h.1 with hc | hs
          · rw [hc] at heq
            simp [alookup] at heq
          · omega
        exact hr_inv _ _ _ _ (Or.inr hsucc)
      · split
        · exact h
        · split
          · exact hr_inv _ _ _ _ (Or.inl rfl)
          · split
            · exact hr_inv _ _ _ _ (Or.inl rfl)
            · split
              · split
                · exact ih p (rc + 1) _ h
                · exact hr_inv _ _ _ _ (Or.inl rfl)
              · exact hr_inv _ _ _ _ (Or.inl rfl)
            · exact hr_inv _ _ _ _ (Or.inl rfl)
    · exact h

theorem ppf_cached_no_fetch (opts : DiscoveryOptions) (oracle : Nat → FetchResult)
    (p : Str) (w : World) (v : List Str)
    (hv : alookup w.state.cachedResults p = some v) :
    (processPrefixW opts oracle p w).fetchLog = w.fetchLog := by
  unfold processPrefixW
  simp only [processPrefixFuel]
  split
  · rw [hv]
  · rfl

/-! ## Run-level lemmas -/

theorem run_blocked_mono (opts : DiscoveryOptions) (oracle : Nat → FetchResult) :
    ∀ (l : List Str) (w : World) (x : Str),
      x ∈ w.state.stats.blockedPrefixes →
      x ∈ (runList opts oracle l w).state.stats.blockedPrefixes := by
  intro l
  induction l with
  | nil => intro w x hx; simpa [runList] using hx
  | cons r rest ih =>
    intro w x hx
    simp only [runList]
    exact ih _ x (ppf_blocked_mono opts oracle _ r 0 w x hx)

theorem run_rate_mono (opts : DiscoveryOptions) (oracle : Nat → FetchResult) :
    ∀ (l : List Str) (w : World),
      w.state.stats.rateLimited ≤ (runList opts oracle l w).state.stats.rateLimited := by
  intro l
  induction l with
  | nil => intro w; simp [runList]
  | cons r rest ih =>
    intro w
    simp only [runList]
    exact le_trans (ppf_rate_mono opts oracle _ r 0 w) (ih _)

theorem run_cache_pres (opts : DiscoveryOptions) (oracle : Nat → FetchResult) :
    ∀ (l : List Str) (w : World) (q : Str) (v : List Str),
      alookup w.state.cachedResults q = some v →
      alookup (runList opts oracle l w).state.cachedResults q = some v := by
  intro l
  induction l with
  | nil => intro w q v hv; simpa [runList] using hv
  | cons r rest ih =>
    intro w q v hv
    simp only [runList]
    exact ih _ q v (ppf_cache_pres opts oracle _ r 0 w q v hv)

theorem run_inv (opts : DiscoveryOptions) (oracle : Nat → FetchResult) :
    ∀ (l : List Str) (w : World),
      EfficiencyInv w.state → EfficiencyInv (runList opts oracle l w).state := by
  intro l
  induction l with
  | nil => intro w h; simpa [runList] using h
  | cons r rest ih =>
    intro w h
    simp only [runList]
    exact ih _ (ppf_inv opts oracle _ r 0 w h)

theorem run_no_descendant_fetch (opts : DiscoveryOptions) (oracle : Nat → FetchResult) :
    ∀ (l : List Str) (w : World) (p : Str),
      p ∈ w.state.stats.blockedPrefixes → 2 ≤ p.length →
      ∀ q : Str, p.isPrefixOf q = true →
        q ∈ (runList opts oracle l w).fetchLog → q ∈ w.fetchLog := by
  intro l
  induction l with
  | nil => intro w p hp hlen q hpre hq; simpa [runList] using hq
  | cons r rest ih =>
    intro w p hp hlen q hpre hq
    simp only [runList] at hq
    have hp' : p ∈ (processPrefixW opts oracle r w).state.stats.blockedPrefixes :=
      ppf_blocked_mono opts oracle _ r 0 w p hp
    have hq' := ih _ p hp' hlen q hpre hq
    by_cases hqr : p.isPrefixOf r = true
    · rw [show processPrefixW opts oracle r w =
          processPrefixFuel opts oracle (opts.maxRetries + 1) r 0 w from rfl,
        ppf_no_fetch_of_blocked opts oracle _ r 0 w p hp hlen hqr] at hq'
      exact hq'
    · obtain ⟨k, _, hlog⟩ := ppf_log opts oracle (opts.maxRetries + 1) r 0 w
      rw [show processPrefixW opts oracle r w =
          processPrefixFuel opts oracle (opts.maxRetries + 1) r 0 w from rfl, hlog] at hq'
      rcases List.mem_append.mp hq' with h | h
      · exact h
      · exact absurd (List.eq_of_mem_replicate h ▸ hpre) hqr

/-! ## Claim theorems -/

/-- C1, counterexample: with the constructor defaults (maxRetries = 3) and a
remote that answers HTTP 429 once and then succeeds, one top-level
`processPrefix("al")` from a fresh running state invokes the remote query
twice for the prefix "al" — the rate-limit retry path re-queries the same
prefix before any result set is cached, so the query function is not
invoked at most once per prefix within a run. -/
theorem claim1_cx :
    (processPrefixW defaultOptions oracle429Once (str "al") w0).fetchLog.count (str "al") = 2 := by
  decide

/-- C2: with maxRetries = 3 and a remote returning HTTP 429 on the first two
attempts and succeeding on the third, processing the prefix "al" from a
fresh running state increments the successful-request counter exactly once,
the rate-limited counter exactly twice, and the failed-request counter not
at all. -/
theorem claim2_thm :
    (processPrefixW defaultOptions oracle429Twice (str "al") w0).state.stats.successfulRequests = 1 ∧
    (processPrefixW defaultOptions oracle429Twice (str "al") w0).state.stats.rateLimited = 2 ∧
    (processPrefixW defaultOptions oracle429Twice (str "al") w0).state.stats.failedRequests = 0 := by
  decide

/-- C3, counterexample: a non-success HTTP status other than 429 (here 500)
increments the failed-request counter by two, not by one — once before the
error object is thrown (part_002 line 387) and once more in the catch block
(line 401). -/
theorem claim3_cx :
    (processPrefixW defaultOptions oracle500 (str "al") w0).state.stats.failedRequests = 2 := by
  decide

/-- C4, counterexample: processing "a" with a successful empty response
stores the observed pattern score 0 for "a", yet `getPatternScore` still
returns 3 for "a" — the length ≤ 1 early return ignores the stored score,
so an observed score does not override the default for one-letter
prefixes. -/
theorem claim4_cx :
    alookup (processPrefixW defaultOptions oracleEmpty (str "a") w0).state.prefixPatterns
        (str "a") = some 0 ∧
    getPatternScore (str "a")
        (processPrefixW defaultOptions oracleEmpty (str "a") w0).state = 3 := by
  decide

/-- C10: when the fetch throws, `processPrefix` increments both the
failed-request counter and the successful-request counter for the same
prefix "al": the synthetic fallback result set is routed through the
ordinary success handler `handleResults` with `fromCache = false`. -/
theorem claim10_thm :
    (processPrefixW defaultOptions oracleThrow (str "al") w0).state.stats.failedRequests = 1 ∧
    (processPrefixW defaultOptions oracleThrow (str "al") w0).state.stats.successfulRequests = 1 ∧
    (processPrefixW defaultOptions oracleThrow (str "al") w0).fetchLog = [str "al"] := by
  decide

/-- C6, counterexample: after one rate-limit rejection followed by twelve
clean successful requests — more than enough history (≥ 10 recorded
timestamps) and more than 10 successes, a sustained clean window — the
derived ceiling is still the lowered 3 = maxConcurrentRequests - 1 and has
not risen back to min(maxConcurrentRequests, 5) = 4.  The same twelve clean
successes without the initial rejection do yield the raised ceiling 4, so
the clean window alone would suffice: it is the never-decaying rejection
count that permanently blocks the rise within the run. -/
theorem claim6_cx :
    (runList defaultOptions oracleC6 lettersAtoL w0).state.stats.rateLimited = 1 ∧
    (runList defaultOptions oracleC6 lettersAtoL w0).state.stats.successfulRequests = 12 ∧
    10 ≤ (runList defaultOptions oracleC6 lettersAtoL w0).state.requestTimestamps.length ∧
    calculateOptimalConcurrency defaultOptions
      (runList defaultOptions oracleC6 lettersAtoL w0).state = 3 ∧
    (runList defaultOptions oracleEmpty lettersAtoL w0).state.stats.rateLimited = 0 ∧
    calculateOptimalConcurrency defaultOptions
      (runList defaultOptions oracleEmpty lettersAtoL w0).state = 4 ∧
    min defaultOptions.maxConcurrentRequests 5 = 4 := by
  decide

/-- C1, amended: once a result set for `p` is stored in the result cache it
persists unchanged for the rest of the run, and every later processing of
`p` takes the cache-hit path and issues no network request; however a
single top-level `processPrefix` call may invoke the remote query up to
`maxRetries + 1` times for its prefix via the rate-limit retry path, so the
per-prefix query bound within a run is `maxRetries + 1`, not one. -/
theorem claim1_amended_thm (opts : DiscoveryOptions) (oracle : Nat → FetchResult)
    (p : Str) (v : List Str) (l : List Str) (w : World)
    (h : alookup w.state.cachedResults p = some v) :
    alookup (runList opts oracle l w).state.cachedResults p = some v ∧
    (processPrefixW opts oracle p (runList opts oracle l w)).fetchLog =
      (runList opts oracle l w).fetchLog ∧
    ∀ w' : World, (processPrefixW opts oracle p w').fetchLog.length ≤
      w'.fetchLog.length + (opts.maxRetries + 1) := by
  have hc := run_cache_pres opts oracle l w p v h
  refine ⟨hc, ppf_cached_no_fetch opts oracle p _ v hc, ?_⟩
  intro w'
  obtain ⟨k, hk, hlog⟩ := ppf_log opts oracle (opts.maxRetries + 1) p 0 w'
  rw [show processPrefixW opts oracle p w' =
      processPrefixFuel opts oracle (opts.maxRetries + 1) p 0 w' from rfl, hlog]
  simp only [List.length_append, List.length_replicate]
  omega

/-- C1, witness for the amended theorem at a concrete cached world. -/
theorem claim1_amended_witness :
    alookup (runList defaultOptions oracleEmpty [str "b"] cachedW).state.cachedResults
        (str "al") = some [str "alice"] ∧
    (processPrefixW defaultOptions oracleEmpty (str "al")
        (runList defaultOptions oracleEmpty [str "b"] cachedW)).fetchLog =
      (runList defaultOptions oracleEmpty [str "b"] cachedW).fetchLog ∧
    ∀ w' : World, (processPrefixW defaultOptions oracleEmpty (str "al") w').fetchLog.length ≤
      w'.fetchLog.length + (defaultOptions.maxRetries + 1) :=
  claim1_amended_thm defaultOptions oracleEmpty (str "al") [str "alice"] [str "b"] cachedW
    (by decide)

/-- C4, amended: prefixes of length ≤ 1 always score 3, even when an
observed score has been stored for them (the observation is ignored, not
returned); for prefixes of length ≥ 2 an observed score is returned
verbatim. -/
theorem claim4_amended_thm (p : Str) (s : ServiceState) :
    (p.length ≤ 1 → getPatternScore p s = 3) ∧
    (∀ v : Nat, 2 ≤ p.length → alookup s.prefixPatterns p = some v →
      getPatternScore p s = v) := by
  constructor
  · intro h
    simp [getPatternScore, h]
  · intro v h hv
    rw [getPatternScore, if_neg (by omega), hv]

/-- C4, witness for the amended theorem: a one-letter prefix with stored
score 0 still scores 3, and a two-letter prefix with stored score 4 scores
exactly 4. -/
theorem claim4_amended_witness :
    getPatternScore (str "a")
        { runningInit with prefixPatterns := [(str "a", 0)] } = 3 ∧
    getPatternScore (str "ja")
        { runningInit with prefixPatterns := [(str "ja", 4)] } = 4 :=
  ⟨(claim4_amended_thm (str "a") _).1 (by decide),
   (claim4_amended_thm (str "ja") _).2 4 (by decide) (by decide)⟩

/-- C5: a completed query with zero results for a prefix of length ≥ 2 adds
that prefix to the blocked set; and once a prefix `p` of length ≥ 2 is in
the blocked set it stays there, every queued extension of `p` (in
particular every proper descendant) is marked to be skipped at processing
time, and no later processing step of the run ever invokes the remote
query for such an extension. -/
theorem claim5_thm (opts : DiscoveryOptions) (oracle : Nat → FetchResult)
    (l : List Str) (w : World) (p : Str) (fc : Bool) (s : ServiceState)
    (hp2 : 2 ≤ p.length) (hp : p ∈ w.state.stats.blockedPrefixes) :
    p ∈ (handleResults p [] fc s).stats.blockedPrefixes ∧
    p ∈ (runList opts oracle l w).state.stats.blockedPrefixes ∧
    (∀ q : Str, p.isPrefixOf q = true →
      shouldSkipPrefix q (runList opts oracle l w).state = true) ∧
    (∀ q : Str, p.isPrefixOf q = true →
      q ∈ (runList opts oracle l w).fetchLog → q ∈ w.fetchLog) := by
  refine ⟨hr_blocks p fc s hp2, run_blocked_mono opts oracle l w p hp, ?_, ?_⟩
  · intro q hpre
    exact skip_of_blocked p q _ (run_blocked_mono opts oracle l w p hp) hp2 hpre
  · intro q hpre hq
    exact run_no_descendant_fetch opts oracle l w p hp hp2 q hpre hq

/-- C5, witness at a concrete blocked world: "al" is blocked, remains
blocked across a run that re-queues the descendant "ale", that descendant is
skipped rather than queried, and the fetch log never gains an extension of
"al". -/
theorem claim5_witness :
    str "al" ∈ (handleResults (str "al") [] false runningInit).stats.blockedPrefixes ∧
    str "al" ∈ (runList defaultOptions oracleEmpty [str "ale"]
        blockedW).state.stats.blockedPrefixes ∧
    (∀ q : Str, (str "al").isPrefixOf q = true →
      shouldSkipPrefix q (runList defaultOptions oracleEmpty [str "ale"] blockedW).state =
        true) ∧
    (∀ q : Str, (str "al").isPrefixOf q = true →
      q ∈ (runList defaultOptions oracleEmpty [str "ale"] blockedW).fetchLog →
        q ∈ blockedW.fetchLog) :=
  claim5_thm defaultOptions oracleEmpty [str "ale"] blockedW (str "al") false runningInit
    (by decide) (by decide)

/-- C6, amended: the derived ceiling starts at 1 and is 1 whenever fewer
than 10 request timestamps are recorded; with at least 10 timestamps it is
raised to `min maxConcurrentRequests 5` when more than 10 successes and
zero rate-limit rejections have been observed, and lowered to
`max 1 (maxConcurrentRequests - 1)` when any rejection has been observed.
The rejection count never decreases within a run, so once any rejection
occurs the ceiling at every later point of the run is exactly the lowered
value (or the floor 1 while history is short) — no sustained window of
clean requests lets it rise again; only `reset()` clears the count. -/
theorem claim6_amended_thm (opts : DiscoveryOptions) (oracle : Nat → FetchResult)
    (l : List Str) (w : World) (s : ServiceState)
    (h : 0 < w.state.stats.rateLimited) :
    calculateOptimalConcurrency opts initialState = 1 ∧
    (s.requestTimestamps.length < 10 → calculateOptimalConcurrency opts s = 1) ∧
    (10 ≤ s.requestTimestamps.length → 0 < s.stats.rateLimited →
      calculateOptimalConcurrency opts s = max 1 (opts.maxConcurrentRequests - 1)) ∧
    (10 ≤ s.requestTimestamps.length → 10 < s.stats.successfulRequests →
      s.stats.rateLimited = 0 →
      calculateOptimalConcurrency opts s = min opts.maxConcurrentRequests 5) ∧
    0 < (runList opts oracle l w).state.stats.rateLimited ∧
    calculateOptimalConcurrency opts (runList opts oracle l w).state =
      (if 10 ≤ (runList opts oracle l w).state.requestTimestamps.length
       then max 1 (opts.maxConcurrentRequests - 1) else 1) := by
  have hmono := run_rate_mono opts oracle l w
  refine ⟨rfl, ?_, ?_, ?_, by omega, ?_⟩
  · intro hts
    unfold calculateOptimalConcurrency
    rw [if_neg (by omega)]
  · intro hts hrl
    unfold calculateOptimalConcurrency
    rw [if_pos hts, if_pos hrl]
  · intro hts hsucc hrl
    unfold calculateOptimalConcurrency
    rw [if_pos hts, if_neg (by omega), if_pos ⟨hsucc, hrl⟩]
  · unfold calculateOptimalConcurrency
    split
    · rw [if_pos (by omega : 0 < (runList opts oracle l w).state.stats.rateLimited)]
    · rfl

/-- C6, witness for the amended theorem at a concrete rate-limited world
and a concrete clean-window state (12 timestamps, 12 successes, zero
rejections) that makes the raise clause's hypotheses hold. -/
theorem claim6_amended_witness :
    calculateOptimalConcurrency defaultOptions initialState = 1 ∧
    (cleanHistoryState.requestTimestamps.length < 10 →
      calculateOptimalConcurrency defaultOptions cleanHistoryState = 1) ∧
    (10 ≤ cleanHistoryState.requestTimestamps.length →
      0 < cleanHistoryState.stats.rateLimited →
      calculateOptimalConcurrency defaultOptions cleanHistoryState =
        max 1 (defaultOptions.maxConcurrentRequests - 1)) ∧
    (10 ≤ cleanHistoryState.requestTimestamps.length →
      10 < cleanHistoryState.stats.successfulRequests →
      cleanHistoryState.stats.rateLimited = 0 →
      calculateOptimalConcurrency defaultOptions cleanHistoryState =
        min defaultOptions.maxConcurrentRequests 5) ∧
    0 < (runList defaultOptions oracleEmpty [str "a"] limitedW).state.stats.rateLimited ∧
    calculateOptimalConcurrency defaultOptions
        (runList defaultOptions oracleEmpty [str "a"] limitedW).state =
      (if 10 ≤ (runList defaultOptions oracleEmpty [str "a"]
          limitedW).state.requestTimestamps.length
       then max 1 (defaultOptions.maxConcurrentRequests - 1) else 1) :=
  claim6_amended_thm defaultOptions oracleEmpty [str "a"] limitedW cleanHistoryState
    (by decide)

/-- C7: `updatePatternScore(prefix, resultCount)` stores for the prefix the
bucketed score — 0 results ↦ 0, 1–2 ↦ 2, 3–5 ↦ 3, 6–8 ↦ 4, more than 8 ↦ 5;
when the result count is positive and the prefix is longer than one
character, the parent's stored score (missing treated as 0, and in-range
scores never exceed 5) becomes `min 5 (old + 1)`; and a parent's own
observed score is never lowered. -/
theorem claim7_thm (p : Str) (count : Nat) (s : ServiceState) (hp : 1 ≤ p.length) :
    alookup (updatePatternScore p count s).prefixPatterns p = some (scoreBucket count) ∧
    (count = 0 → scoreBucket count = 0) ∧
    (1 ≤ count → count ≤ 2 → scoreBucket count = 2) ∧
    (3 ≤ count → count ≤ 5 → scoreBucket count = 3) ∧
    (6 ≤ count → count ≤ 8 → scoreBucket count = 4) ∧
    (9 ≤ count → scoreBucket count = 5) ∧
    (1 ≤ count → 2 ≤ p.length → (alookup s.prefixPatterns p.dropLast).getD 0 ≤ 5 →
      alookup (updatePatternScore p count s).prefixPatterns p.dropLast =
        some (min 5 ((alookup s.prefixPatterns p.dropLast).getD 0 + 1))) ∧
    (∀ v : Nat, alookup s.prefixPatterns p.dropLast = some v →
      ∃ v' : Nat, alookup (updatePatternScore p count s).prefixPatterns p.dropLast =
        some v' ∧ v ≤ v') := by
  have hpnil : p ≠ [] := by
    intro hnil
    subst hnil
    simp at hp
  have hpne : p.dropLast ≠ p := dropLast_ne_self p hpnil
  have hlk : alookup (aset s.prefixPatterns p (scoreBucket count)) p.dropLast =
      alookup s.prefixPatterns p.dropLast := alookup_aset_ne _ _ _ _ hpne
  refine ⟨upd_patterns_self p count s hpnil, ?_, ?_, ?_, ?_, ?_, ?_, ?_⟩
  · intro h
    simp [scoreBucket, h]
  · intro h1 h2
    unfold scoreBucket
    rw [if_neg (by omega), if_neg (by omega), if_neg (by omega), if_pos (by omega)]
  · intro h1 h2
    unfold scoreBucket
    rw [if_neg (by omega), if_neg (by omega), if_pos (by omega)]
  · intro h1 h2
    unfold scoreBucket
    rw [if_neg (by omega), if_pos (by omega)]
  · intro h1
    unfold scoreBucket
    rw [if_pos (by omega)]
  · intro hc hlen hb
    simp only [updatePatternScore]
    rw [if_pos (by omega : 1 < p.length)]
    by_cases h5 : (alookup s.prefixPatterns p.dropLast).getD 0 < 5
    · rw [if_pos ⟨by omega, by rw [hlk]; exact h5⟩, hlk, alookup_aset_self]
    · rw [if_neg (by rw [hlk]; exact fun hh => h5 hh.2), hlk]
      cases hv : alookup s.prefixPatterns p.dropLast with
      | none =>
        rw [hv] at h5
        simp at h5
      | some v =>
        rw [hv] at h5 hb
        simp only [Option.getD_some] at h5 hb ⊢
        have hv5 : v = 5 := by omega
        subst hv5
        rfl
  · intro v hv
    simp only [updatePatternScore]
    split
    · split
      · next hcond =>
        refine ⟨min 5 ((alookup (aset s.prefixPatterns p (scoreBucket count))
            p.dropLast).getD 0 + 1), alookup_aset_self _ _ _, ?_⟩
        rw [hlk, hv] at hcond ⊢
        simp only [Option.getD_some] at hcond ⊢
        omega
      · exact ⟨v, by rw [hlk, hv], le_refl v⟩
    · exact ⟨v, by rw [hlk, hv], le_refl v⟩

/-- C7, witness: a concrete update with four results on a two-letter prefix
whose parent has no stored score. -/
theorem claim7_witness :
    alookup (updatePatternScore (str "ja") 4 runningInit).prefixPatterns (str "ja") =
        some (scoreBucket 4) ∧
    (4 = 0 → scoreBucket 4 = 0) ∧
    (1 ≤ 4 → 4 ≤ 2 → scoreBucket 4 = 2) ∧
    (3 ≤ 4 → 4 ≤ 5 → scoreBucket 4 = 3) ∧
    (6 ≤ 4 → 4 ≤ 8 → scoreBucket 4 = 4) ∧
    (9 ≤ 4 → scoreBucket 4 = 5) ∧
    (1 ≤ 4 → 2 ≤ (str "ja").length →
      (alookup runningInit.prefixPatterns (str "ja").dropLast).getD 0 ≤ 5 →
      alookup (updatePatternScore (str "ja") 4 runningInit).prefixPatterns
          (str "ja").dropLast =
        some (min 5 ((alookup runningInit.prefixPatterns (str "ja").dropLast).getD 0 + 1))) ∧
    (∀ v : Nat, alookup runningInit.prefixPatterns (str "ja").dropLast = some v →
      ∃ v' : Nat, alookup (updatePatternScore (str "ja") 4 runningInit).prefixPatterns
        (str "ja").dropLast = some v' ∧ v ≤ v') :=
  claim7_thm (str "ja") 4 runningInit (by decide)

/-- C8: processing a prefix whose result set is already cached leaves the
successful-request counter unchanged, yet still inserts every cached name
into the unique-name set, still stores the bucketed pattern score for the
cached result count, and issues no network request. -/
theorem claim8_thm (opts : DiscoveryOptions) (oracle : Nat → FetchResult)
    (p : Str) (names : List Str) (w : World)
    (hrun : w.state.isRunning = true) (hp : p ≠ [])
    (hcache : alookup w.state.cachedResults p = some names) :
    (processPrefixW opts oracle p w).state.stats.successfulRequests =
      w.state.stats.successfulRequests ∧
    (∀ n : Str, n ∈ names → n ∈ (processPrefixW opts oracle p w).state.stats.uniqueNames) ∧
    alookup (processPrefixW opts oracle p w).state.prefixPatterns p =
      some (scoreBucket names.length) ∧
    (processPrefixW opts oracle p w).fetchLog = w.fetchLog := by
  have hstep : processPrefixW opts oracle p w =
      { w with state := handleResults p names true w.state } := by
    unfold processPrefixW
    simp only [processPrefixFuel]
    rw [if_pos hrun, hcache]
  rw [hstep]
  refine ⟨?_, ?_, ?_, rfl⟩
  · rw [show ({ w with state := handleResults p names true w.state } : World).state =
      handleResults p names true w.state from rfl, hr_succ]
    simp
  · intro n hn
    exact hr_unique_mem p names true w.state n (Or.inr hn)
  · exact hr_patterns_self p names true w.state hp

/-- C8, witness at a concrete world whose cache already holds "al". -/
theorem claim8_witness :
    (processPrefixW defaultOptions oracleEmpty (str "al") cachedW).state.stats.successfulRequests =
      cachedW.state.stats.successfulRequests ∧
    (∀ n : Str, n ∈ [str "alice"] →
      n ∈ (processPrefixW defaultOptions oracleEmpty (str "al")
        cachedW).state.stats.uniqueNames) ∧
    alookup (processPrefixW defaultOptions oracleEmpty (str "al")
        cachedW).state.prefixPatterns (str "al") =
      some (scoreBucket ([str "alice"] : List Str).length) ∧
    (processPrefixW defaultOptions oracleEmpty (str "al") cachedW).fetchLog =
      cachedW.fetchLog :=
  claim8_thm defaultOptions oracleEmpty (str "al") [str "alice"] cachedW (by decide)
    (by decide) (by decide)

/-- C9: the efficiency invariant — `efficiency` equals
`|uniqueNames| / successfulRequests`, and equals 0 whenever the
successful-request counter is 0 — holds in the freshly constructed state,
in the freshly started state, after `reset()`, and is preserved by every
run, hence it holds after every completed prefix. -/
theorem claim9_thm (opts : DiscoveryOptions) (oracle : Nat → FetchResult)
    (l : List Str) (w : World) (s : ServiceState)
    (h : EfficiencyInv w.state) :
    EfficiencyInv (runList opts oracle l w).state ∧
    EfficiencyInv initialState ∧
    EfficiencyInv runningInit ∧
    EfficiencyInv (resetService s) := by
  exact ⟨run_inv opts oracle l w h, ⟨Or.inl rfl, rfl⟩, ⟨Or.inl rfl, rfl⟩,
    ⟨Or.inl rfl, rfl⟩⟩

/-- C9, witness: the invariant after a concrete one-prefix run from a fresh
running world, plus the initial, started and reset states. -/
theorem claim9_witness :
    EfficiencyInv (runList defaultOptions oracleEmpty [str "a"] w0).state ∧
    EfficiencyInv initialState ∧
    EfficiencyInv runningInit ∧
    EfficiencyInv (resetService
      (runList defaultOptions oracleEmpty [str "a"] w0).state) :=
  claim9_thm defaultOptions oracleEmpty [str "a"] w0
    (runList defaultOptions oracleEmpty [str "a"] w0).state ⟨Or.inl rfl, rfl⟩

/-- C3, amended: when the fetch for a not-yet-cached, not-skipped prefix
terminates without success, the executor does not retry the query (exactly
one fetch is logged for the call), and a locally generated placeholder
result set is cached and routed through the ordinary success handler
(raising the successful-request counter by one); the failed-request counter
however rises by two for a non-success HTTP status other than 429 (once
before the throw and once in the catch block) and by one when the fetch
itself throws. -/
theorem claim3_amended_thm (opts : DiscoveryOptions) (oracle : Nat → FetchResult)
    (p : Str) (w : World)
    (hrun : w.state.isRunning = true)
    (hcache : alookup w.state.cachedResults p = none)
    (hskip : shouldSkipPrefix p w.state = false)
    (hsim : w.state.simulationMode = false) :
    (∀ st : Nat, oracle w.fetchCount = FetchResult.httpError st → st ≠ 429 →
      (processPrefixW opts oracle p w).state.stats.failedRequests =
          w.state.stats.failedRequests + 2 ∧
      (processPrefixW opts oracle p w).state.stats.successfulRequests =
          w.state.stats.successfulRequests + 1 ∧
      (processPrefixW opts oracle p w).fetchLog = w.fetchLog ++ [p] ∧
      alookup (processPrefixW opts oracle p w).state.cachedResults p =
        some (generateFakeNamesForPrefix p w.state)) ∧
    (oracle w.fetchCount = FetchResult.throwErr →
      (processPrefixW opts oracle p w).state.stats.failedRequests =
          w.state.stats.failedRequests + 1 ∧
      (processPrefixW opts oracle p w).state.stats.successfulRequests =
          w.state.stats.successfulRequests + 1 ∧
      (processPrefixW opts oracle p w).fetchLog = w.fetchLog ++ [p] ∧
      alookup (processPrefixW opts oracle p w).state.cachedResults p =
        some (generateFakeNamesForPrefix p w.state)) := by
  constructor
  · intro st hresp hst
    have hstep : ∀ conc : World → Prop,
        conc (processPrefixW opts oracle p w) ↔ conc (catchHandler p
          { state := { w.state with
              stats := { w.state.stats with
                totalRequests := w.state.stats.totalRequests + 1,
                failedRequests := w.state.stats.failedRequests + 1 },
              requestTimestamps := w.state.requestTimestamps ++ [0] },
            fetchCount := w.fetchCount + 1, fetchLog := w.fetchLog ++ [p] }) := by
      intro conc
      unfold processPrefixW
      simp only [processPrefixFuel]
      rw [if_pos hrun, hcache, if_neg (by simp [hskip]), if_neg (by simp [hsim])]
      simp only [hresp]
      rw [if_neg hst]
    refine ⟨?_, ?_, ?_, ?_⟩
    · rw [(hstep (fun u => u.state.stats.failedRequests =
        w.state.stats.failedRequests + 2)).mpr]
      rw [catch_failed]
    · rw [(hstep (fun u => u.state.stats.successfulRequests =
        w.state.stats.successfulRequests + 1)).mpr]
      rw [catch_succ]
    · exact (hstep (fun u => u.fetchLog = w.fetchLog ++ [p])).mpr (catch_log _ _)
    · rw [(hstep (fun u => alookup u.state.cachedResults p =
        some (generateFakeNamesForPrefix p w.state))).mpr]
      rw [catch_cache_self]
      exact congrArg some (gfn_congr p _ _ rfl rfl)
  · intro hresp
    have hstep : ∀ conc : World → Prop,
        conc (processPrefixW opts oracle p w) ↔ conc (catchHandler p
          { state := { w.state with
              stats := { w.state.stats with
                totalRequests := w.state.stats.totalRequests + 1 },
              requestTimestamps := w.state.requestTimestamps ++ [0] },
            fetchCount := w.fetchCount + 1, fetchLog := w.fetchLog ++ [p] }) := by
      intro conc
      unfold processPrefixW
      simp only [processPrefixFuel]
      rw [if_pos hrun, hcache, if_neg (by simp [hskip]), if_neg (by simp [hsim])]
      simp only [hresp]
    refine ⟨?_, ?_, ?_, ?_⟩
    · rw [(hstep (fun u => u.state.stats.failedRequests =
        w.state.stats.failedRequests + 1)).mpr]
      rw [catch_failed]
    · rw [(hstep (fun u => u.state.stats.successfulRequests =
        w.state.stats.successfulRequests + 1)).mpr]
      rw [catch_succ]
    · exact (hstep (fun u => u.fetchLog = w.fetchLog ++ [p])).mpr (catch_log _ _)
    · rw [(hstep (fun u => alookup u.state.cachedResults p =
        some (generateFakeNamesForPrefix p w.state))).mpr]
      rw [catch_cache_self]
      exact congrArg some (gfn_congr p _ _ rfl rfl)

/-- C3, witness for the amended theorem: HTTP 500 doubles the failure count
from a fresh state, a thrown fetch raises it by one, and both cases count a
success for the substituted placeholder results. -/
theorem claim3_amended_witness :
    (processPrefixW defaultOptions oracle500 (str "al") w0).state.stats.failedRequests =
        w0.state.stats.failedRequests + 2 ∧
    (processPrefixW defaultOptions oracleThrow (str "al") w0).state.stats.failedRequests =
        w0.state.stats.failedRequests + 1 ∧
    (processPrefixW defaultOptions oracleThrow (str "al") w0).state.stats.successfulRequests =
        w0.state.stats.successfulRequests + 1 ∧
    (processPrefixW defaultOptions oracle500 (str "al") w0).fetchLog = w0.fetchLog ++ [str "al"] :=
  ⟨((claim3_amended_thm defaultOptions oracle500 (str "al") w0 (by decide) (by decide)
      (by decide) (by decide)).1 500 rfl (by decide)).1,
   ((claim3_amended_thm defaultOptions oracleThrow (str "al") w0 (by decide) (by decide)
      (by decide) (by decide)).2 rfl).1,
   ((claim3_amended_thm defaultOptions oracleThrow (str "al") w0 (by decide) (by decide)
      (by decide) (by decide)).2 rfl).2.1,
   ((claim3_amended_thm defaultOptions oracle500 (str "al") w0 (by decide) (by decide)
      (by decide) (by decide)).1 500 rfl (by decide)).2.2.1⟩
